import Mathlib

/-!
Verification of the audio-processing pipeline (noise gate, normalizer,
frequency mask filter, batch runner) against its natural-language
specification.  Signals are embedded as lists of real numbers; the
floating-point arithmetic of the source is modelled by exact real
arithmetic.  Exceptions raised by library calls are modelled with
`Option`; per-file success is a `Bool`, matching the source functions
that catch all exceptions and report success or failure.
-/

/-- Clipping of one sample, as `np.clip(x, lo, hi) = min(max(x, lo), hi)`. -/
noncomputable def clip (x lo hi : ℝ) : ℝ := min (max x lo) hi

/-- Largest absolute value of a buffer, as `np.max(np.abs(audio))`
(zero for the empty buffer, which the callers never reach). -/
noncomputable def maxAbs (l : List ℝ) : ℝ := (l.map fun x => |x|).foldr max 0

/-- Truncation toward zero, the semantics of Python `int()` on a float. -/
noncomputable def intTrunc (x : ℝ) : ℤ := if 0 ≤ x then ⌊x⌋ else ⌈x⌉

/-- Conversion of a millisecond time to whole samples,
`int(ms * sample_rate / 1000)` — note: no clamping to a minimum of 1. -/
noncomputable def msToSamples (ms : ℝ) (sample_rate : ℕ) : ℤ :=
  intTrunc (ms * sample_rate / 1000)

/-- Root-mean-square of a buffer, `np.sqrt(np.mean(audio ** 2))`
(the empty mean `0 / 0` is `0` here; numpy yields NaN, and both fail the
strict positivity test guarding the scaling branch). -/
noncomputable def rmsOf (audio : List ℝ) : ℝ :=
  Real.sqrt ((audio.map fun x => x ^ 2).sum / audio.length)

/-- Coefficient `k` of the full discrete convolution of two zero-extended
sequences, `c k = sum_j a j * v (k - j)`. -/
noncomputable def convCoeff (a v : List ℝ) (k : ℕ) : ℝ :=
  ∑ j ∈ Finset.range (k + 1), a.getD j 0 * v.getD (k - j) 0

/-- Centered slice of the full convolution, `np.convolve(a, v, mode='same')`:
`max |a| |v|` coefficients starting at offset `(min |a| |v| - 1) / 2`. -/
noncomputable def convolve_same (a v : List ℝ) : List ℝ :=
  (List.range (max a.length v.length)).map fun i =>
    convCoeff a v (i + (min a.length v.length - 1) / 2)

/-- Moving-average RMS envelope with a window of `w` samples,
`np.sqrt(np.convolve(audio ** 2, np.ones(w) / w, mode='same'))`.
When `w = 0` the kernel `np.ones(0) / 0` is empty and `np.convolve`
raises `ValueError`, modelled by `none`. -/
noncomputable def movingRms (w : ℕ) (audio : List ℝ) : Option (List ℝ) :=
  if w = 0 then none
  else some ((convolve_same (audio.map fun x => x ^ 2)
      (List.replicate w ((1 : ℝ) / w))).map Real.sqrt)

/-- Adaptive envelope window of the noise gates,
`window_size = min(1024, len(audio) // 10)` — note: no minimum of 1. -/
def window_size (n : ℕ) : ℕ := min 1024 (n / 10)

/-- Smaller adaptive window of the pre-normalization gate,
`window_size = min(512, len(audio) // 20)`. -/
def window_size_pre (n : ℕ) : ℕ := min 512 (n / 20)

/-- RMS envelope as computed by both noise gates. -/
noncomputable def rms_envelope (audio : List ℝ) : Option (List ℝ) :=
  movingRms (window_size audio.length) audio

/-- Parameters of the standalone `NoiseGateProcessor` (noisegate.py). -/
structure GateConfig where
  threshold_db : ℝ
  attack_ms : ℝ
  release_ms : ℝ
  ratio : ℝ

/-- Raw per-sample target gain of noisegate.py: ones everywhere, overwritten
below threshold by the compressive curve `(rms / thr) ** (1 / ratio)` when
`ratio > 1`, by `0.0` otherwise. -/
noncomputable def gain_reduction (threshold_amp ratio : ℝ) (rms : List ℝ) : List ℝ :=
  rms.map fun e =>
    if e < threshold_amp then
      (if 1 < ratio then (e / threshold_amp) ^ ((1 : ℝ) / ratio) else 0)
    else 1

/-- One step of the attack/release smoothing loop of noisegate.py. -/
noncomputable def smoothStep (att rel : ℤ) (prev target : ℝ) : ℝ :=
  if target < prev then prev - (prev - target) / att
  else prev + (target - prev) / rel

/-- The smoothing loop from index 1 on, carrying the previous gain. -/
noncomputable def smoothScan (att rel : ℤ) : ℝ → List ℝ → List ℝ
  | _, [] => []
  | prev, t :: ts =>
      smoothStep att rel prev t :: smoothScan att rel (smoothStep att rel prev t) ts

/-- Smoothed gain array of noisegate.py: `np.ones_like` start, so entry 0
stays `1.0`, and the loop from `i = 1` applies `smoothStep`. -/
noncomputable def smoothed_gain (att rel : ℤ) (targets : List ℝ) : List ℝ :=
  match targets with
  | [] => []
  | _ :: ts => 1 :: smoothScan att rel 1 ts

/-- NoiseGateProcessor.apply_noise_gate (noisegate.py lines 53-104):
envelope, ratio-dependent target gain, causal attack/release smoothing,
gain application and a final clip to `[-1, 1]`.  The `except` clause
returns the input unchanged when the envelope computation raises. -/
noncomputable def NoiseGateProcessor.apply_noise_gate (cfg : GateConfig)
    (audio : List ℝ) (sample_rate : ℕ) : List ℝ :=
  let threshold_amp := (10 : ℝ) ^ (cfg.threshold_db / 20)
  let att := msToSamples cfg.attack_ms sample_rate
  let rel := msToSamples cfg.release_ms sample_rate
  match rms_envelope audio with
  | none => audio
  | some rms =>
      let gr := gain_reduction threshold_amp cfg.ratio rms
      let sg := smoothed_gain att rel gr
      (List.zipWith (fun x g => x * g) audio sg).map fun y => clip y (-1) 1

/-- Target gain exactly as the specification words it: a compressive curve
below threshold for `ratio > 1`, a hard 0-below / 1-above gate otherwise. -/
noncomputable def targetGainSpec (threshold_amp ratio e : ℝ) : ℝ :=
  if 1 < ratio then
    (if e < threshold_amp then (e / threshold_amp) ^ ((1 : ℝ) / ratio) else 1)
  else
    (if e < threshold_amp then 0 else 1)

/-- Smoothed gain exactly as the specification words it: initial gain 1 and
`g[i] = g[i-1] - (g[i-1] - t[i]) / att` when `t[i] < g[i-1]`, else
`g[i] = g[i-1] + (t[i] - g[i-1]) / rel`. -/
noncomputable def gainRecSpec (att rel : ℤ) (t : ℕ → ℝ) : ℕ → ℝ
  | 0 => 1
  | i + 1 =>
      if t (i + 1) < gainRecSpec att rel t i then
        gainRecSpec att rel t i - (gainRecSpec att rel t i - t (i + 1)) / att
      else
        gainRecSpec att rel t i + (t (i + 1) - gainRecSpec att rel t i) / rel

/-- Recurrence computed by `smoothScan` starting from a given previous gain:
`scanRec p t 0 = smoothStep p (t 0)` and each later value steps from the
preceding one. -/
noncomputable def scanRec (att rel : ℤ) (p : ℝ) (t : ℕ → ℝ) : ℕ → ℝ
  | 0 => smoothStep att rel p (t 0)
  | j + 1 => smoothStep att rel (scanRec att rel p t j) (t (j + 1))

/-- AudioNormalizer.normalize_audio (normalize.py lines 50-82): RMS-based
rescaling toward the target loudness, a clipping guard replacing the scale
by `max_amplitude / max(|audio|)` when the scaled peak would exceed the
bound, a final clip, and the zero-RMS branch returning the input. -/
noncomputable def AudioNormalizer.normalize_audio (target_db max_amplitude : ℝ)
    (audio : List ℝ) : List ℝ :=
  let rms := rmsOf audio
  if 0 < rms then
    let target_amplitude := (10 : ℝ) ^ (target_db / 20)
    let scale_factor := target_amplitude / rms
    let max_current := maxAbs audio
    let scale_factor2 :=
      if max_amplitude < max_current * scale_factor then max_amplitude / max_current
      else scale_factor
    audio.map fun x => clip (x * scale_factor2) (-max_amplitude) max_amplitude
  else audio

/-- Resolved configuration record of the main pipeline
(src/src/config/settings.py), restricted to the fields the embedded
stages read. -/
structure Settings where
  enable_normalization : Bool
  normalization_target_db : ℝ
  max_audio_amplitude : ℝ
  enable_noise_gate : Bool
  noise_gate_threshold_db : ℝ
  noise_gate_attack_ms : ℝ
  noise_gate_release_ms : ℝ
  enable_pre_normalization_gate : Bool
  pre_gate_threshold_db : ℝ
  pre_gate_attack_ms : ℝ
  pre_gate_release_ms : ℝ
  enable_frequency_filtering : Bool
  freq_low_cutoff : ℝ
  freq_high_cutoff : ℝ
  freq_speech_boost_low : ℝ
  freq_speech_boost_high : ℝ
  freq_speech_boost_amount : ℝ
  output_sample_rate : Option ℕ

/-- AudioProcessor.normalize_audio (src/src/audio/processor.py lines
166-226): like the standalone normalizer but guarded by the enable flag,
and taking `min(scale_factor, safe_scale_factor)` in the clipping guard. -/
noncomputable def AudioProcessor.normalize_audio (s : Settings) (audio : List ℝ) : List ℝ :=
  if s.enable_normalization = false then audio
  else
    let rms := rmsOf audio
    if 0 < rms then
      let target_amplitude := (10 : ℝ) ^ (s.normalization_target_db / 20)
      let scale_factor := target_amplitude / rms
      let max_current := maxAbs audio
      let scale_factor2 :=
        if s.max_audio_amplitude < max_current * scale_factor then
          min scale_factor (s.max_audio_amplitude / max_current)
        else scale_factor
      audio.map fun x => clip (x * scale_factor2) (-s.max_audio_amplitude) s.max_audio_amplitude
    else audio

/-- One step of the binary attack/release ramp of the main and
pre-normalization gates in processor.py.  The divisions `1.0 / att` and
`1.0 / rel` are Python float divisions, so a zero denominator raises
`ZeroDivisionError`, modelled by `none`. -/
noncomputable def gateRampStep (threshold : ℝ) (att rel : ℤ) (prev e : ℝ) : Option ℝ :=
  if threshold < e then
    (if prev < 1 then (if att = 0 then none else some (min 1 (prev + 1 / att))) else some 1)
  else
    (if 0 < prev then (if rel = 0 then none else some (max 0 (prev - 1 / rel))) else some 0)

/-- The gate-control loop of processor.py from index 1 on; entry 0 of the
`np.zeros_like` start stays `0.0`. -/
noncomputable def gateControlScan (threshold : ℝ) (att rel : ℤ) : ℝ → List ℝ → Option (List ℝ)
  | _, [] => some []
  | prev, e :: es =>
      match gateRampStep threshold att rel prev e with
      | none => none
      | some g => (gateControlScan threshold att rel g es).map fun gs => g :: gs

/-- AudioProcessor.apply_noise_gate (processor.py lines 351-409): binary
ramp gate over the adaptive RMS envelope; any raised error (empty
convolution kernel, zero division) makes the `except` clause return the
input unchanged. -/
noncomputable def AudioProcessor.apply_noise_gate (s : Settings) (audio : List ℝ)
    (sample_rate : ℕ) : List ℝ :=
  if s.enable_noise_gate = false then audio
  else
    let threshold := (10 : ℝ) ^ (s.noise_gate_threshold_db / 20)
    let att := msToSamples s.noise_gate_attack_ms sample_rate
    let rel := msToSamples s.noise_gate_release_ms sample_rate
    match rms_envelope audio with
    | none => audio
    | some rms =>
        match rms with
        | [] => audio
        | _ :: es =>
            match gateControlScan threshold att rel 0 es with
            | none => audio
            | some gs => List.zipWith (fun x g => x * g) audio (0 :: gs)

/-- AudioProcessor.apply_pre_normalization_gate (processor.py lines
295-349): same ramp mechanism as the main gate with the smaller analysis
window; never invoked by `process_audio_file`. -/
noncomputable def AudioProcessor.apply_pre_normalization_gate (s : Settings)
    (audio : List ℝ) (sample_rate : ℕ) : List ℝ :=
  let threshold := (10 : ℝ) ^ (s.pre_gate_threshold_db / 20)
  let att := msToSamples s.pre_gate_attack_ms sample_rate
  let rel := msToSamples s.pre_gate_release_ms sample_rate
  match movingRms (window_size_pre audio.length) audio with
  | none => audio
  | some rms =>
      match rms with
      | [] => audio
      | _ :: es =>
          match gateControlScan threshold att rel 0 es with
          | none => audio
          | some gs => List.zipWith (fun x g => x * g) audio (0 :: gs)

/-- Frequency of FFT bin `k` for a 2048-point transform,
`librosa.fft_frequencies(sr, n_fft=2048)[k] = k * sr / 2048`. -/
noncomputable def fft_frequency (sample_rate : ℝ) (k : ℕ) : ℝ := k * sample_rate / 2048

/-- Per-bin multiplicative mask built by apply_frequency_filtering
(processor.py lines 260-274): ones, times the strict low-cutoff mask
`freqs > low`, times the strict high-cutoff mask `freqs < high`, times the
boost `10 ** (boost_db / 20)` on the inclusive speech band. -/
noncomputable def freq_mask_coeff (s : Settings) (sample_rate : ℝ) (k : ℕ) : ℝ :=
  (if s.freq_low_cutoff < fft_frequency sample_rate k then (1 : ℝ) else 0)
  * (if fft_frequency sample_rate k < s.freq_high_cutoff then (1 : ℝ) else 0)
  * (if s.freq_speech_boost_low ≤ fft_frequency sample_rate k ∧
        fft_frequency sample_rate k ≤ s.freq_speech_boost_high then
      (10 : ℝ) ^ (s.freq_speech_boost_amount / 20)
    else 1)

/-- Length fix of processor.py lines 282-286: truncate the inverse
transform when longer than the input, zero-pad at the end when shorter. -/
noncomputable def fixLength (n : ℕ) (l : List ℝ) : List ℝ :=
  if n < l.length then l.take n
  else l ++ List.replicate (n - l.length) 0

/-- AudioProcessor.apply_frequency_filtering (processor.py lines 228-293).
The STFT, masked multiply and inverse STFT are `librosa` library calls,
external to this repository; they are abstracted as `stftRoundTrip`, with
`none` modelling any raised error (caught, returning the input).  The
repository's own logic — the enable flag, the length fix, and the
fallback — is embedded exactly. -/
noncomputable def AudioProcessor.apply_frequency_filtering (s : Settings)
    (stftRoundTrip : List ℝ → Option (List ℝ)) (audio : List ℝ) : List ℝ :=
  if s.enable_frequency_filtering = false then audio
  else
    match stftRoundTrip audio with
    | none => audio
    | some filtered => fixLength audio.length filtered

/-- ASCII lower-casing of one character, the effect of Python
`str.lower()` on the ASCII suffixes compared here. -/
def lowerChar (c : Char) : Char :=
  if 65 ≤ c.toNat ∧ c.toNat ≤ 90 then Char.ofNat (c.toNat + 32) else c

/-- Lower-casing of a string, Python `suffix.lower()`. -/
def lowerString (s : String) : String := ⟨s.data.map lowerChar⟩

/-- Lexicographic comparison of character sequences, the order Python
uses when comparing strings (and `sorted` would use on filenames). -/
def lexLeChars : List Char → List Char → Bool
  | [], _ => true
  | _ :: _, [] => false
  | a :: as, b :: bs => if a < b then true else if b < a then false else lexLeChars as bs

/-- A directory entry as seen by the file discovery: name, suffix as
reported by `pathlib`, and whether it is a regular file. -/
structure FileEntry where
  name : String
  suffix : String
  isFile : Bool
deriving DecidableEq

/-- SUPPORTED_FORMATS of src/src/config/settings.py. -/
def supported_formats : List String :=
  [".wav", ".mp3", ".m4a", ".flac", ".aac", ".ogg"]

/-- get_audio_files (src/src/utils/file_utils.py lines 19-40): keep the
regular files whose lowercased suffix is supported, in directory iteration
order — note: no `sorted(...)` call, unlike the standalone scripts. -/
def get_audio_files (listing : List FileEntry) : List FileEntry :=
  listing.filter fun f => f.isFile && supported_formats.contains (lowerString f.suffix)

/-- CourtroomAudioProcessor.process_all_files (src/src/core/processor.py
lines 68-103): early `(0, 0)` return when nothing was found, otherwise
count the files whose per-file outcome is success, against the total. -/
def process_all_files (outcome : FileEntry → Bool) (listing : List FileEntry) : ℕ × ℕ :=
  let files := get_audio_files listing
  if files.isEmpty then (0, 0)
  else (files.countP outcome, files.length)

/-- AudioProcessor.process_audio_file (processor.py lines 429-482): load,
normalize, optionally gate, denoise, optional sample-rate conversion,
save.  Loading and saving are `librosa`/`soundfile` calls abstracted as
arguments (`none`/`false` = raised, caught by the outer `except`, so the
function reports `false`).  The denoiser catches its own errors and always
returns a buffer.  The sample-rate conversion branch calls
`self.convert_sample_rate`, a method that does not exist anywhere in the
repository, so reaching it raises `AttributeError` and the file fails. -/
noncomputable def AudioProcessor.process_audio_file (s : Settings)
    (load : FileEntry → Option (List ℝ × ℕ))
    (denoise : List ℝ → ℕ → List ℝ)
    (save : List ℝ → ℕ → FileEntry → Bool)
    (f : FileEntry) : Bool :=
  match load f with
  | none => false
  | some (audio, sample_rate) =>
      let normalized := AudioProcessor.normalize_audio s audio
      let gated := if s.enable_noise_gate then
          AudioProcessor.apply_noise_gate s normalized sample_rate
        else normalized
      let processed := denoise gated sample_rate
      match s.output_sample_rate with
      | some osr => if osr = sample_rate then save processed sample_rate f else false
      | none => save processed sample_rate f

/-- Concrete gate parameters (noisegate.py defaults) used by witnesses. -/
noncomputable def gc0 : GateConfig := ⟨-25, 10, 500, 10⟩

/-- Concrete resolved settings (the settings.py defaults) used by
witnesses. -/
noncomputable def s0 : Settings :=
  ⟨true, -20, 1, false, -40, 5, 100, false, -40, 5, 100, false, 100, 7000, 500, 3000, 2, none⟩

/-- Settings of the identity-mask scenario: zero low cutoff, Nyquist high
cutoff for 44100 Hz, zero boost. -/
noncomputable def sIdent : Settings :=
  ⟨true, -20, 1, false, -40, 5, 100, false, -40, 5, 100, true, 0, 22050, 500, 3000, 0, none⟩

/-- Settings with a configured output sample rate, used by witnesses. -/
noncomputable def sResample : Settings :=
  ⟨true, -20, 1, false, -40, 5, 100, false, -40, 5, 100, false, 100, 7000, 500, 3000, 2, some 48000⟩

/-- Directory entry `b.wav`, used by counterexamples. -/
def fileB : FileEntry := ⟨"b.wav", ".wav", true⟩

/-- Directory entry `a.wav`, used by counterexamples. -/
def fileA : FileEntry := ⟨"a.wav", ".wav", true⟩

/-- A loader that yields a one-sample 44100 Hz buffer, used by witnesses. -/
noncomputable def load44100 : FileEntry → Option (List ℝ × ℕ) := fun _ => some ([0], 44100)

/-- A denoiser that returns its input, used by witnesses. -/
noncomputable def denoiseId : List ℝ → ℕ → List ℝ := fun a _ => a

/-- A saver that always succeeds, used by witnesses. -/
def saveOk : List ℝ → ℕ → FileEntry → Bool := fun _ _ _ => true

/-- Clipping to `[-m, m]` bounds the magnitude by `m` whenever `0 ≤ m`. -/
theorem abs_clip_le (x m : ℝ) (hm : 0 ≤ m) : |clip x (-m) m| ≤ m := by
  rw [abs_le]
  exact ⟨le_min (le_max_right _ _) (by linarith), min_le_right _ _⟩

/-- A buffer whose RMS is not positive consists of zeros only. -/
theorem rms_zero_all_zero (audio : List ℝ) (h : ¬ 0 < rmsOf audio) :
    ∀ y ∈ audio, y = 0 := by
  intro y hy
  have hnn : ∀ b ∈ (audio.map fun x => x ^ 2), 0 ≤ b := by
    intro b hb
    obtain ⟨x, _, rfl⟩ := List.mem_map.mp hb
    positivity
  have hsum : 0 ≤ (audio.map fun x => x ^ 2).sum := List.sum_nonneg hnn
  have hlen : (0 : ℝ) < audio.length := by
    have hne : audio.length ≠ 0 := by
      intro h0
      rw [List.length_eq_zero] at h0
      subst h0
      simp at hy
    exact_mod_cast Nat.pos_of_ne_zero hne
  have hmean : (audio.map fun x => x ^ 2).sum / (audio.length : ℝ) = 0 := by
    have h1 : ¬ 0 < (audio.map fun x => x ^ 2).sum / (audio.length : ℝ) := by
      intro hc
      exact h (Real.sqrt_pos.mpr hc)
    have h2 : 0 ≤ (audio.map fun x => x ^ 2).sum / (audio.length : ℝ) :=
      div_nonneg hsum hlen.le
    exact le_antisymm (not_lt.mp h1) h2
  have hsum0 : (audio.map fun x => x ^ 2).sum = 0 := by
    rcases div_eq_zero_iff.mp hmean with h1 | h1
    · exact h1
    · exact absurd h1 hlen.ne'
  have hle : y ^ 2 ≤ (audio.map fun x => x ^ 2).sum :=
    List.single_le_sum hnn _ (List.mem_map_of_mem _ hy)
  have hsq : y ^ 2 = 0 := le_antisymm (hsum0 ▸ hle) (by positivity)
  exact sq_eq_zero_iff.mp hsq

/-- C1: for every finite input buffer, the normalizer returns a buffer in
which every sample's magnitude is at most `max_amplitude`: when the scaled
peak would exceed the bound the scale is recomputed from
`max_amplitude / max(|buffer|)`, and the result is clipped to
`[-max_amplitude, max_amplitude]`, in both the standalone
`AudioNormalizer.normalize_audio` and the pipeline's
`AudioProcessor.normalize_audio` (with normalization enabled), for any
non-negative amplitude bound. -/
theorem normalize_output_bounded (target_db m : ℝ) (s : Settings) (audio : List ℝ)
    (hm : 0 ≤ m) (he : s.enable_normalization = true) (hs : s.max_audio_amplitude = m) :
    (∀ y ∈ AudioNormalizer.normalize_audio target_db m audio, |y| ≤ m) ∧
    (∀ y ∈ AudioProcessor.normalize_audio s audio, |y| ≤ m) := by
  constructor
  · intro y hy
    unfold AudioNormalizer.normalize_audio at hy
    by_cases hrms : 0 < rmsOf audio
    · rw [if_pos hrms] at hy
      simp only [List.mem_map] at hy
      obtain ⟨x, _, rfl⟩ := hy
      exact abs_clip_le _ m hm
    · rw [if_neg hrms] at hy
      rw [rms_zero_all_zero audio hrms y hy]
      simpa using hm
  · intro y hy
    unfold AudioProcessor.normalize_audio at hy
    rw [he, hs] at hy
    rw [if_neg (by simp : ¬ (true = false))] at hy
    by_cases hrms : 0 < rmsOf audio
    · rw [if_pos hrms] at hy
      simp only [List.mem_map] at hy
      obtain ⟨x, _, rfl⟩ := hy
      exact abs_clip_le _ m hm
    · rw [if_neg hrms] at hy
      rw [rms_zero_all_zero audio hrms y hy]
      simpa using hm

/-- Witness for normalize_output_bounded at concrete inputs. -/
theorem normalize_output_bounded_witness :
    (0 : ℝ) ≤ 1 ∧ s0.enable_normalization = true ∧ s0.max_audio_amplitude = 1 ∧
    ((∀ y ∈ AudioNormalizer.normalize_audio (-24) 1 [2, -3], |y| ≤ 1) ∧
     (∀ y ∈ AudioProcessor.normalize_audio s0 [2, -3], |y| ≤ 1)) :=
  ⟨by norm_num, rfl, rfl,
    normalize_output_bounded (-24) 1 s0 [2, -3] (by norm_num) rfl rfl⟩

/-- Length of the centered convolution slice. -/
theorem convolve_same_length (a v : List ℝ) :
    (convolve_same a v).length = max a.length v.length := by
  simp [convolve_same]

/-- The adaptive window is positive once the buffer has at least 10
samples. -/
theorem window_size_pos (n : ℕ) (h : 10 ≤ n) : window_size n ≠ 0 := by
  unfold window_size
  have h1 : 1 ≤ n / 10 := (Nat.one_le_div_iff (by norm_num)).mpr h
  omega

/-- The adaptive window never exceeds the buffer length. -/
theorem window_size_le (n : ℕ) : window_size n ≤ n := by
  unfold window_size
  exact le_trans (min_le_right _ _) (Nat.div_le_self n 10)

/-- C3 counterexample: on a 5-sample buffer the envelope window
`min(1024, len // 10)` is 0, not the claimed minimum of 1, and the
envelope computation fails (empty convolution kernel) instead of
returning a same-length envelope. -/
theorem envelope_short_buffer_fails :
    window_size (List.replicate 5 (1 : ℝ)).length = 0 ∧
    rms_envelope (List.replicate 5 (1 : ℝ)) = none := by
  constructor
  · norm_num [window_size]
  · norm_num [rms_envelope, movingRms, window_size]

/-- On a buffer of length at least 10 the envelope is defined and has the
buffer's length. -/
theorem rms_envelope_spec (audio : List ℝ) (h : 10 ≤ audio.length) :
    ∃ env, rms_envelope audio = some env ∧ env.length = audio.length := by
  have hw : window_size audio.length ≠ 0 := window_size_pos _ h
  refine ⟨(convolve_same (audio.map fun x => x ^ 2)
      (List.replicate (window_size audio.length)
        ((1 : ℝ) / (window_size audio.length)))).map Real.sqrt, ?_, ?_⟩
  · simp [rms_envelope, movingRms, hw]
  · rw [List.length_map, convolve_same_length]
    simp only [List.length_map, List.length_replicate]
    exact Nat.max_eq_left (window_size_le _)

/-- C3 amended: the envelope window is `min(1024, len // 10)` with no
minimum clamp; for every buffer of length at least 10 the envelope is
defined and has exactly the buffer's length (for shorter buffers the
window is 0 and the computation fails, see the counterexample). -/
theorem envelope_length_for_long_buffers (audio : List ℝ) (h : 10 ≤ audio.length) :
    ∃ env, rms_envelope audio = some env ∧ env.length = audio.length :=
  rms_envelope_spec audio h

/-- Witness for envelope_length_for_long_buffers at a 10-sample buffer. -/
theorem envelope_length_for_long_buffers_witness :
    10 ≤ (List.replicate 10 (1 : ℝ)).length ∧
    ∃ env, rms_envelope (List.replicate 10 (1 : ℝ)) = some env ∧
      env.length = (List.replicate 10 (1 : ℝ)).length :=
  ⟨by simp, envelope_length_for_long_buffers _ (by simp)⟩

/-- C4 counterexample: a 0 ms attack time converts to 0 samples, not to
the claimed clamped minimum of 1 sample. -/
theorem attack_zero_ms_not_clamped :
    msToSamples 0 44100 = 0 ∧ msToSamples 0 44100 ≠ 1 := by
  have h : msToSamples 0 44100 = 0 := by
    simp [msToSamples, intTrunc]
  exact ⟨h, by rw [h]; norm_num⟩

/-- C4 amended: for non-negative millisecond times the conversion is the
plain floor of `ms * sample_rate / 1000` with no minimum clamp, so any
configuration with `ms * sample_rate < 1000` — in particular 0 ms —
yields 0 samples, and the smoothing recurrence divides by zero. -/
theorem ms_to_samples_floor_no_clamp (ms : ℝ) (sample_rate : ℕ) (h : 0 ≤ ms) :
    msToSamples ms sample_rate = ⌊ms * sample_rate / 1000⌋ ∧
    (ms * sample_rate < 1000 → msToSamples ms sample_rate = 0) := by
  have hx : (0 : ℝ) ≤ ms * sample_rate / 1000 := by positivity
  constructor
  · rw [msToSamples, intTrunc, if_pos hx]
  · intro hlt
    rw [msToSamples, intTrunc, if_pos hx]
    refine Int.floor_eq_zero_iff.mpr ?_
    rw [Set.mem_Ico]
    exact ⟨hx, by rw [div_lt_one (by norm_num)]; exact hlt⟩

/-- Witness for ms_to_samples_floor_no_clamp at 0 ms and 44100 Hz. -/
theorem ms_to_samples_floor_no_clamp_witness :
    (0 : ℝ) ≤ 0 ∧ (msToSamples 0 44100 = ⌊(0 : ℝ) * (44100 : ℕ) / 1000⌋ ∧
      ((0 : ℝ) * (44100 : ℕ) < 1000 → msToSamples 0 44100 = 0)) :=
  ⟨le_refl 0, ms_to_samples_floor_no_clamp 0 44100 (le_refl 0)⟩

/-- C5: the batch runner evaluates the per-file chain on every discovered
file — a file whose chain reports failure only lowers the success count,
the remaining files are still processed — and returns
`(successful, total)` with `successful ≤ total`; an empty input set
yields `(0, 0)`. -/
theorem batch_counts_and_empty (s : Settings)
    (load : FileEntry → Option (List ℝ × ℕ)) (denoise : List ℝ → ℕ → List ℝ)
    (save : List ℝ → ℕ → FileEntry → Bool) (listing : List FileEntry) :
    process_all_files (AudioProcessor.process_audio_file s load denoise save) listing
      = ((get_audio_files listing).countP (AudioProcessor.process_audio_file s load denoise save),
         (get_audio_files listing).length) ∧
    (process_all_files (AudioProcessor.process_audio_file s load denoise save) listing).1
      ≤ (process_all_files (AudioProcessor.process_audio_file s load denoise save) listing).2 ∧
    process_all_files (AudioProcessor.process_audio_file s load denoise save) [] = (0, 0) := by
  have hgen : ∀ (out : FileEntry → Bool) (l : List FileEntry),
      process_all_files out l = ((get_audio_files l).countP out, (get_audio_files l).length) := by
    intro out l
    unfold process_all_files
    by_cases hemp : (get_audio_files l).isEmpty = true
    · rw [if_pos hemp]
      rw [List.isEmpty_iff] at hemp
      simp [hemp]
    · rw [if_neg hemp]
  refine ⟨hgen _ _, ?_, ?_⟩
  · rw [hgen]
    exact List.countP_le_length _
  · rw [hgen]
    simp [get_audio_files]

/-- The length fix always restores the original length. -/
theorem fixLength_length (n : ℕ) (l : List ℝ) : (fixLength n l).length = n := by
  unfold fixLength
  by_cases h : n < l.length
  · rw [if_pos h]
    simp [List.length_take]
    omega
  · rw [if_neg h]
    simp only [List.length_append, List.length_replicate]
    omega

/-- C6: for every input of length at least the 2048-sample transform
window, the frequency mask filter returns a buffer of exactly the input's
length — the inverse-transform result is truncated or zero-padded, and
both the disabled path and the failure path return the input itself. -/
theorem frequency_filter_length_invariant (s : Settings)
    (stftRoundTrip : List ℝ → Option (List ℝ)) (audio : List ℝ)
    (h : 2048 ≤ audio.length) :
    (AudioProcessor.apply_frequency_filtering s stftRoundTrip audio).length
      = audio.length := by
  unfold AudioProcessor.apply_frequency_filtering
  by_cases he : s.enable_frequency_filtering = false
  · rw [if_pos he]
  · rw [if_neg he]
    cases hst : stftRoundTrip audio with
    | none => rfl
    | some filtered => exact fixLength_length _ _

/-- Witness for frequency_filter_length_invariant on a 2048-sample
buffer. -/
theorem frequency_filter_length_invariant_witness :
    2048 ≤ (List.replicate 2048 (0 : ℝ)).length ∧
    (AudioProcessor.apply_frequency_filtering s0 (fun _ => none)
      (List.replicate 2048 (0 : ℝ))).length = (List.replicate 2048 (0 : ℝ)).length := by
  have hlen : (2048 : ℕ) ≤ (List.replicate 2048 (0 : ℝ)).length := by
    simp only [List.length_replicate]
    omega
  exact ⟨hlen, frequency_filter_length_invariant s0 (fun _ => none) _ hlen⟩

/-- C8 counterexample: the main batch runner's file discovery keeps the
directory iteration order — a listing that yields `b.wav` before `a.wav`
is processed in that order, which is not lexicographic by filename
(`get_audio_files` of src/src/utils/file_utils.py has no `sorted` call). -/
theorem get_audio_files_not_sorted :
    get_audio_files [fileB, fileA] = [fileB, fileA] ∧
    ¬ (get_audio_files [fileB, fileA]).Pairwise
        (fun f g => lexLeChars f.name.data g.name.data = true) := by
  constructor
  · decide
  · decide

/-- C8 amended: the batch runner processes the discovered audio files in
the directory's iteration order — `get_audio_files` is an
order-preserving filter of the listing — with no lexicographic sort (only
the standalone scripts sort their file lists). -/
theorem get_audio_files_preserves_listing_order (listing : List FileEntry) :
    (get_audio_files listing).Sublist listing :=
  List.filter_sublist _

/-- C9: when the configured output sample rate is set and differs from the
source rate, process_audio_file reaches the sample-rate conversion branch,
which calls the non-existent method `convert_sample_rate`; the resulting
`AttributeError` is caught by the outer handler and the file fails —
contradicting the claim that the file reaches the Saved state. -/
theorem resample_config_forces_failure (s : Settings)
    (load : FileEntry → Option (List ℝ × ℕ)) (denoise : List ℝ → ℕ → List ℝ)
    (save : List ℝ → ℕ → FileEntry → Bool) (f : FileEntry)
    (audio : List ℝ) (sample_rate osr : ℕ)
    (hload : load f = some (audio, sample_rate))
    (hosr : s.output_sample_rate = some osr) (hne : osr ≠ sample_rate) :
    AudioProcessor.process_audio_file s load denoise save f = false := by
  unfold AudioProcessor.process_audio_file
  rw [hload]
  simp [hosr, hne]

/-- Witness for resample_config_forces_failure: output rate 48000
configured, source at 44100. -/
theorem resample_config_forces_failure_witness :
    load44100 fileB = some ([0], 44100) ∧ sResample.output_sample_rate = some 48000 ∧
    (48000 : ℕ) ≠ 44100 ∧
    AudioProcessor.process_audio_file sResample load44100 denoiseId saveOk fileB = false :=
  ⟨rfl, rfl, by norm_num,
    resample_config_forces_failure sResample load44100 denoiseId saveOk fileB
      [0] 44100 48000 rfl rfl (by norm_num)⟩

/-- C10: the per-file chain never invokes the pre-normalization gate, so
its output is independent of every pre-normalization gate setting: two
runs whose settings differ only in the enable flag, threshold, attack or
release of the pre-gate produce identical results. -/
theorem process_audio_file_ignores_pre_gate_settings (s : Settings)
    (b : Bool) (t a r : ℝ)
    (load : FileEntry → Option (List ℝ × ℕ)) (denoise : List ℝ → ℕ → List ℝ)
    (save : List ℝ → ℕ → FileEntry → Bool) (f : FileEntry) :
    AudioProcessor.process_audio_file
      { s with enable_pre_normalization_gate := b, pre_gate_threshold_db := t,
               pre_gate_attack_ms := a, pre_gate_release_ms := r } load denoise save f
      = AudioProcessor.process_audio_file s load denoise save f := by
  cases s
  rfl

/-- C7 counterexample: with low_cutoff = 0 Hz, high_cutoff = Nyquist
(22050 Hz at 44100 Hz) and boost = 0 dB, the per-bin mask is 0 — not the
claimed 1 — at the 0 Hz bin and at the Nyquist bin, because the cutoff
masks use strict comparisons `freqs > low` and `freqs < high`. -/
theorem identity_mask_kills_edge_bins :
    freq_mask_coeff sIdent 44100 0 = 0 ∧ freq_mask_coeff sIdent 44100 1024 = 0 ∧
    freq_mask_coeff sIdent 44100 0 ≠ 1 := by
  have h0 : freq_mask_coeff sIdent 44100 0 = 0 := by
    unfold freq_mask_coeff fft_frequency sIdent
    norm_num
  have h1 : freq_mask_coeff sIdent 44100 1024 = 0 := by
    unfold freq_mask_coeff fft_frequency sIdent
    norm_num
  exact ⟨h0, h1, by rw [h0]; norm_num⟩

/-- C7 amended: with low_cutoff = 0, high_cutoff = Nyquist and boost =
0 dB the mask equals 1 on every interior bin (1 ≤ k ≤ 1023), but the 0 Hz
bin and the Nyquist bin are zeroed by the strict cutoff comparisons, so
the filter is not an exact identity: it removes the DC and Nyquist
components. -/
theorem identity_mask_interior_only (s : Settings) (sample_rate : ℝ) (k : ℕ)
    (hlow : s.freq_low_cutoff = 0) (hhigh : s.freq_high_cutoff = sample_rate / 2)
    (hboost : s.freq_speech_boost_amount = 0) (hsr : 0 < sample_rate)
    (hk1 : 1 ≤ k) (hk2 : k ≤ 1023) :
    freq_mask_coeff s sample_rate k = 1 ∧
    freq_mask_coeff s sample_rate 0 = 0 ∧
    freq_mask_coeff s sample_rate 1024 = 0 := by
  refine ⟨?_, ?_, ?_⟩
  · have hkpos : (0 : ℝ) < fft_frequency sample_rate k := by
      have hk : (1 : ℝ) ≤ (k : ℝ) := by exact_mod_cast hk1
      unfold fft_frequency
      positivity
    have hklt : fft_frequency sample_rate k < sample_rate / 2 := by
      have hk : (k : ℝ) ≤ 1023 := by exact_mod_cast hk2
      unfold fft_frequency
      rw [div_lt_div_iff (by norm_num) (by norm_num)]
      nlinarith
    unfold freq_mask_coeff
    rw [hlow, hhigh, hboost, if_pos hkpos, if_pos hklt]
    norm_num
  · unfold freq_mask_coeff
    rw [hlow]
    have hf0 : fft_frequency sample_rate 0 = 0 := by
      unfold fft_frequency
      norm_num
    rw [hf0]
    norm_num
  · unfold freq_mask_coeff
    have hfn : fft_frequency sample_rate 1024 = sample_rate / 2 := by
      unfold fft_frequency
      ring
    rw [hhigh, hfn, if_neg (lt_irrefl _)]
    ring

/-- Witness for identity_mask_interior_only at 44100 Hz and bin 512. -/
theorem identity_mask_interior_only_witness :
    sIdent.freq_low_cutoff = 0 ∧ sIdent.freq_high_cutoff = (44100 : ℝ) / 2 ∧
    sIdent.freq_speech_boost_amount = 0 ∧ (0 : ℝ) < 44100 ∧
    1 ≤ 512 ∧ 512 ≤ 1023 ∧
    (freq_mask_coeff sIdent 44100 512 = 1 ∧
     freq_mask_coeff sIdent 44100 0 = 0 ∧
     freq_mask_coeff sIdent 44100 1024 = 0) :=
  ⟨rfl, by norm_num [sIdent], rfl, by norm_num, by norm_num, by norm_num,
   identity_mask_interior_only sIdent 44100 512 rfl (by norm_num [sIdent]) rfl
     (by norm_num) (by norm_num) (by norm_num)⟩

/-- Indexing commutes with `map` inside the bounds. -/
theorem getD_map_lt (f : ℝ → ℝ) (l : List ℝ) (i : ℕ) (h : i < l.length) :
    (l.map f).getD i 0 = f (l.getD i 0) := by
  induction l generalizing i with
  | nil => simp at h
  | cons a l ih =>
    cases i with
    | zero => rfl
    | succ n =>
      simp only [List.map_cons, List.getD_cons_succ]
      exact ih n (by simpa using h)

/-- Indexing commutes with `zipWith` inside the bounds. -/
theorem getD_zipWith_lt (f : ℝ → ℝ → ℝ) (l1 l2 : List ℝ) (i : ℕ)
    (h1 : i < l1.length) (h2 : i < l2.length) :
    (List.zipWith f l1 l2).getD i 0 = f (l1.getD i 0) (l2.getD i 0) := by
  induction l1 generalizing l2 i with
  | nil => simp at h1
  | cons a l ih =>
    cases l2 with
    | nil => simp at h2
    | cons b l2 =>
      cases i with
      | zero => rfl
      | succ n =>
        simp only [List.zipWith_cons_cons, List.getD_cons_succ]
        exact ih l2 n (by simpa using h1) (by simpa using h2)

/-- The smoothing loop preserves the length. -/
theorem smoothScan_length (att rel : ℤ) (p : ℝ) (ts : List ℝ) :
    (smoothScan att rel p ts).length = ts.length := by
  induction ts generalizing p with
  | nil => rfl
  | cons t ts ih => simp [smoothScan, ih]

/-- The smoothed gain array has the length of the target array. -/
theorem smoothed_gain_length (att rel : ℤ) (ts : List ℝ) :
    (smoothed_gain att rel ts).length = ts.length := by
  cases ts with
  | nil => rfl
  | cons t ts => simp [smoothed_gain, smoothScan_length]

/-- Unfolding equation of `scanRec` at 0. -/
theorem scanRec_zero (att rel : ℤ) (p : ℝ) (t : ℕ → ℝ) :
    scanRec att rel p t 0 = smoothStep att rel p (t 0) := rfl

/-- Unfolding equation of `scanRec` at a successor. -/
theorem scanRec_succ (att rel : ℤ) (p : ℝ) (t : ℕ → ℝ) (j : ℕ) :
    scanRec att rel p t (j + 1) = smoothStep att rel (scanRec att rel p t j) (t (j + 1)) := rfl

/-- Unfolding equation of `gainRecSpec` at 0. -/
theorem gainRecSpec_zero (att rel : ℤ) (t : ℕ → ℝ) : gainRecSpec att rel t 0 = 1 := rfl

/-- Unfolding equation of `gainRecSpec` at a successor: one smoothing
step from the previous value. -/
theorem gainRecSpec_succ (att rel : ℤ) (t : ℕ → ℝ) (i : ℕ) :
    gainRecSpec att rel t (i + 1) =
      smoothStep att rel (gainRecSpec att rel t i) (t (i + 1)) := rfl

/-- Shifting the start of the scan recurrence by one step. -/
theorem scanRec_shift (att rel : ℤ) (p : ℝ) (t : ℕ → ℝ) (j : ℕ) :
    scanRec att rel p t (j + 1) =
      scanRec att rel (smoothStep att rel p (t 0)) (fun k => t (k + 1)) j := by
  induction j with
  | zero => rfl
  | succ j ih => rw [scanRec_succ, ih, scanRec_succ]

/-- The gain recurrence from index 1 on is the scan recurrence started at
the initial gain 1 over the shifted targets. -/
theorem gainRecSpec_succ_eq_scanRec (att rel : ℤ) (t : ℕ → ℝ) (i : ℕ) :
    gainRecSpec att rel t (i + 1) = scanRec att rel 1 (fun k => t (k + 1)) i := by
  induction i with
  | zero => rfl
  | succ i ih => rw [gainRecSpec_succ, scanRec_succ, ih]

/-- The gain recurrence only consults the targets up to its index. -/
theorem gainRec_congr (att rel : ℤ) (t1 t2 : ℕ → ℝ) (i : ℕ)
    (h : ∀ k, k ≤ i → t1 k = t2 k) :
    gainRecSpec att rel t1 i = gainRecSpec att rel t2 i := by
  induction i with
  | zero => rfl
  | succ i ih =>
    rw [gainRecSpec_succ, gainRecSpec_succ,
      ih fun k hk => h k (le_trans hk (Nat.le_succ i)), h (i + 1) (le_refl _)]

/-- Entries of the smoothing loop satisfy the scan recurrence. -/
theorem smoothScan_getD (att rel : ℤ) (ts : List ℝ) (p : ℝ) (j : ℕ)
    (hj : j < ts.length) :
    (smoothScan att rel p ts).getD j 0 =
      scanRec att rel p (fun k => ts.getD k 0) j := by
  induction ts generalizing p j with
  | nil => simp at hj
  | cons t ts ih =>
    cases j with
    | zero => rfl
    | succ j =>
      simp only [smoothScan, List.getD_cons_succ]
      rw [ih (smoothStep att rel p t) j (by simpa using hj), scanRec_shift]
      simp only [List.getD_cons_succ, List.getD_cons_zero]

/-- Entries of the smoothed gain array satisfy the specification's gain
recurrence with initial gain 1. -/
theorem smoothed_gain_getD (att rel : ℤ) (targets : List ℝ) (i : ℕ)
    (hi : i < targets.length) :
    (smoothed_gain att rel targets).getD i 0 =
      gainRecSpec att rel (fun k => targets.getD k 0) i := by
  cases targets with
  | nil => simp at hi
  | cons t0 ts =>
    cases i with
    | zero => rfl
    | succ i =>
      simp only [smoothed_gain, List.getD_cons_succ]
      rw [smoothScan_getD att rel ts 1 i (by simpa using hi),
        gainRecSpec_succ_eq_scanRec]
      simp only [List.getD_cons_succ]

/-- Entries of the raw gain-reduction array equal the specification's
per-sample target gain. -/
theorem gain_reduction_getD (threshold_amp ratio : ℝ) (rms : List ℝ) (i : ℕ)
    (hi : i < rms.length) :
    (gain_reduction threshold_amp ratio rms).getD i 0 =
      targetGainSpec threshold_amp ratio (rms.getD i 0) := by
  unfold gain_reduction
  rw [getD_map_lt _ _ _ hi]
  unfold targetGainSpec
  split_ifs <;> rfl

/-- C2 amended: on every buffer long enough for the envelope (length at
least 10, so the adaptive window is non-empty — for non-empty buffers of
length 1 to 9 the envelope computation fails and the gate returns the
input unchanged, see the counterexample),
NoiseGateProcessor.apply_noise_gate
computes exactly what the specification describes: the target gain is
`(envelope / threshold)^(1 / ratio)` below the amplitude threshold when
`ratio > 1` and the hard 0-below / 1-above gate otherwise; the target is
smoothed causally from initial gain 1 by
`g[i] = g[i-1] - (g[i-1] - t[i]) / attack_samples` when `t[i] < g[i-1]`
and `g[i] = g[i-1] + (t[i] - g[i-1]) / release_samples` otherwise; and
the output is `buffer[i] * g[i]` clipped to `[-1, 1]`. -/
theorem noise_gate_matches_spec (cfg : GateConfig) (audio : List ℝ) (sample_rate : ℕ)
    (h : 10 ≤ audio.length) :
    ∃ env, rms_envelope audio = some env ∧
      ((NoiseGateProcessor.apply_noise_gate cfg audio sample_rate).length = audio.length ∧
       ∀ i, i < audio.length →
         (NoiseGateProcessor.apply_noise_gate cfg audio sample_rate).getD i 0 =
           clip (audio.getD i 0 *
             gainRecSpec (msToSamples cfg.attack_ms sample_rate)
               (msToSamples cfg.release_ms sample_rate)
               (fun k => targetGainSpec ((10 : ℝ) ^ (cfg.threshold_db / 20)) cfg.ratio
                 (env.getD k 0)) i) (-1) 1) := by
  obtain ⟨env, henv, hlen⟩ := rms_envelope_spec audio h
  have hout : NoiseGateProcessor.apply_noise_gate cfg audio sample_rate =
      (List.zipWith (fun x g => x * g) audio
        (smoothed_gain (msToSamples cfg.attack_ms sample_rate)
          (msToSamples cfg.release_ms sample_rate)
          (gain_reduction ((10 : ℝ) ^ (cfg.threshold_db / 20)) cfg.ratio env))).map
        fun y => clip y (-1) 1 := by
    unfold NoiseGateProcessor.apply_noise_gate
    rw [henv]
  have hgr_len : (gain_reduction ((10 : ℝ) ^ (cfg.threshold_db / 20)) cfg.ratio env).length
      = audio.length := by
    unfold gain_reduction
    rw [List.length_map, hlen]
  have hsg_len : (smoothed_gain (msToSamples cfg.attack_ms sample_rate)
      (msToSamples cfg.release_ms sample_rate)
      (gain_reduction ((10 : ℝ) ^ (cfg.threshold_db / 20)) cfg.ratio env)).length
      = audio.length := by
    rw [smoothed_gain_length, hgr_len]
  have hzip_len : (List.zipWith (fun x g => x * g) audio
      (smoothed_gain (msToSamples cfg.attack_ms sample_rate)
        (msToSamples cfg.release_ms sample_rate)
        (gain_reduction ((10 : ℝ) ^ (cfg.threshold_db / 20)) cfg.ratio env))).length
      = audio.length := by
    rw [List.length_zipWith, hsg_len, Nat.min_self]
  refine ⟨env, henv, ?_, ?_⟩
  · rw [hout, List.length_map, hzip_len]
  · intro i hi
    rw [hout]
    rw [getD_map_lt _ _ _ (by rw [hzip_len]; exact hi)]
    rw [getD_zipWith_lt _ _ _ _ hi (by rw [hsg_len]; exact hi)]
    rw [smoothed_gain_getD _ _ _ _ (by rw [hgr_len]; exact hi)]
    have hcong : gainRecSpec (msToSamples cfg.attack_ms sample_rate)
        (msToSamples cfg.release_ms sample_rate)
        (fun k => (gain_reduction ((10 : ℝ) ^ (cfg.threshold_db / 20)) cfg.ratio env).getD k 0) i
        = gainRecSpec (msToSamples cfg.attack_ms sample_rate)
            (msToSamples cfg.release_ms sample_rate)
            (fun k => targetGainSpec ((10 : ℝ) ^ (cfg.threshold_db / 20)) cfg.ratio
              (env.getD k 0)) i := by
      refine gainRec_congr _ _ _ _ _ fun k hk => ?_
      exact gain_reduction_getD _ _ _ _ (by rw [hlen]; exact lt_of_le_of_lt hk hi)
    rw [hcong]

/-- Witness for noise_gate_matches_spec on a 10-sample buffer with the
default gate parameters at 44100 Hz. -/
theorem noise_gate_matches_spec_witness :
    10 ≤ (List.replicate 10 (1 : ℝ)).length ∧
    ∃ env, rms_envelope (List.replicate 10 (1 : ℝ)) = some env ∧
      ((NoiseGateProcessor.apply_noise_gate gc0 (List.replicate 10 (1 : ℝ)) 44100).length
          = (List.replicate 10 (1 : ℝ)).length ∧
       ∀ i, i < (List.replicate 10 (1 : ℝ)).length →
         (NoiseGateProcessor.apply_noise_gate gc0 (List.replicate 10 (1 : ℝ)) 44100).getD i 0 =
           clip ((List.replicate 10 (1 : ℝ)).getD i 0 *
             gainRecSpec (msToSamples gc0.attack_ms 44100) (msToSamples gc0.release_ms 44100)
               (fun k => targetGainSpec ((10 : ℝ) ^ (gc0.threshold_db / 20)) gc0.ratio
                 (env.getD k 0)) i) (-1) 1) :=
  ⟨by simp, noise_gate_matches_spec gc0 (List.replicate 10 (1 : ℝ)) 44100 (by simp)⟩

/-- C2 counterexample: on the non-empty 3-sample buffer `[2, 2, 2]` the
adaptive window is 0, the envelope computation raises, and the gate's
`except` clause returns the input unchanged — sample 0 of the output is
2, whose magnitude exceeds 1, so the output is not of the claimed form
`clip(buffer[i] * g[i], -1, 1)`; the claim fails for non-empty buffers
shorter than 10 samples. -/
theorem noise_gate_short_buffer_unclipped :
    NoiseGateProcessor.apply_noise_gate gc0 [2, 2, 2] 44100 = [2, 2, 2] ∧
    (NoiseGateProcessor.apply_noise_gate gc0 [2, 2, 2] 44100).getD 0 0 = 2 ∧
    ¬ |(NoiseGateProcessor.apply_noise_gate gc0 [2, 2, 2] 44100).getD 0 0| ≤ 1 := by
  have henv : rms_envelope [(2 : ℝ), 2, 2] = none := by
    norm_num [rms_envelope, movingRms, window_size]
  have hgate : NoiseGateProcessor.apply_noise_gate gc0 [2, 2, 2] 44100 = [2, 2, 2] := by
    unfold NoiseGateProcessor.apply_noise_gate
    rw [henv]
  refine ⟨hgate, ?_, ?_⟩
  · rw [hgate]
    rfl
  · rw [hgate]
    norm_num
